import Mathlib

/-!
Shallow embedding of `src/pitch_corrector.py`, the vinyl-style audio pitch
corrector. Pure helper functions of the script become Lean functions;
Python floats are modelled by `ℝ` where the value is transcendental
(`2 ^ (semitones / 12)`) and by `ℚ` where only ordering, equality and
rational arithmetic matter; the external resampler (`librosa.resample`) is a
function parameter; the effectful parts of `process_audio_file` (the write
calls, the ffmpeg transcode and its progress loop) are modelled by explicit
data describing the actions the code performs.
-/

namespace PitchCorrector

/-- `semitones_to_ratio` (pitch_corrector.py lines 107-109):
`2.0 ** (semitones / 12.0)`. -/
noncomputable def semitones_to_ratio (semitones : ℝ) : ℝ :=
  (2 : ℝ) ^ (semitones / 12)

/-- Python's `int()` applied to a real value truncates toward zero. -/
noncomputable def pyInt (x : ℝ) : ℤ :=
  if 0 ≤ x then ⌊x⌋ else ⌈x⌉

/-- The target sample rate computed inside `vinyl_pitch_shift`
(line 128): `target_sr = int(sr / speed_ratio)` where
`speed_ratio = semitones_to_ratio(semitones)`. -/
noncomputable def target_sr (sr : ℕ) (semitones : ℚ) : ℤ :=
  pyInt ((sr : ℝ) / semitones_to_ratio (semitones : ℝ))

/-- The spec's formula for the target rate: `round(source_rate / rate_ratio)`,
the nearest integer. Stated from the spec's words, for comparison with the
code's `target_sr`. -/
noncomputable def target_sr_spec (sr : ℕ) (semitones : ℚ) : ℤ :=
  round ((sr : ℝ) / semitones_to_ratio (semitones : ℝ))

/-- `vinyl_pitch_shift` (lines 112-140). The external resampler
(`librosa.resample`) is passed as a function taking the channel, the source
rate and the computed target rate. When `semitones == 0` the input buffer is
returned unchanged without calling the resampler; otherwise the channel is
resampled at `target_sr`. -/
noncomputable def vinyl_pitch_shift {α : Type} (resample : List α → ℕ → ℤ → List α)
    (audio_data : List α) (sr : ℕ) (semitones : ℚ) : List α :=
  if semitones = 0 then audio_data
  else resample audio_data sr (target_sr sr semitones)

/-- The multi-channel branch of `process_audio_file` (lines 185-196): each
channel of the buffer is shifted independently, in order, and the results are
stacked back in the same order. -/
noncomputable def processChannels {α : Type} (resample : List α → ℕ → ℤ → List α)
    (buffer : List (List α)) (sr : ℕ) (semitones : ℚ) : List (List α) :=
  buffer.map fun channel => vinyl_pitch_shift resample channel sr semitones

/-- `get_supported_formats` (lines 87-92). -/
def get_supported_formats : List String :=
  [".wav", ".flac", ".aiff", ".aif", ".aifc", ".au", ".snd",
   ".mp3", ".m4a", ".ogg", ".opus"]

/-- Python's `str.lower` as it acts on extension strings: each character
mapped to its lower-case form (ASCII, which covers every suffix the
allow-list and the claims involve). -/
def pyLower (s : String) : String :=
  ⟨s.data.map Char.toLower⟩

/-- `validate_audio_file` (lines 95-104). `file_exists` stands for
`os.path.exists(file_path)` and `ext` for `Path(file_path).suffix`; the code
lowercases the suffix before testing `ext not in get_supported_formats()`. -/
def validate_audio_file (file_exists : Bool) (ext : String) : Bool × String :=
  if !file_exists then (false, "File does not exist.")
  else
    let lowered := pyLower ext
    if lowered ∉ get_supported_formats then
      (false, "Unsupported format: " ++ lowered)
    else (true, "Valid audio file.")

/-- The bounds check of `get_pitch_adjustment` (lines 389-392): a value with
`abs(semitones) > 12` is rejected (the loop continues), anything else is
accepted and returned. -/
def pitch_adjustment_accepted (semitones : ℚ) : Bool :=
  if |semitones| > 12 then false else true

/-- The output decision of `process_audio_file` (lines 199-234): the format,
subtype and lossy-transcode flag chosen from the lowercased input extension
and the format information read from the file (`none` when `sf.SoundFile`
raised, in which case the code falls back to `WAV`/`PCM_24` with
`can_preserve_format = False`). -/
structure OutputPlan where
  output_format : String
  output_subtype : String
  will_convert_to_mp3 : Bool
deriving DecidableEq

/-- The if/elif/else chain of lines 202-234. `formatInfo` is
`some (original_format, original_subtype)` when the `sf.SoundFile` probe
succeeded and `none` when it raised. -/
def planOutput (input_ext : String) (formatInfo : Option (String × String)) : OutputPlan :=
  let original_format := match formatInfo with
    | some (f, _) => f
    | none => "WAV"
  let original_subtype := match formatInfo with
    | some (_, s) => s
    | none => "PCM_24"
  let can_preserve_format := formatInfo.isSome
  if input_ext = ".mp3" then
    ⟨"WAV", "PCM_16", true⟩
  else if input_ext = ".m4a" ∨ input_ext = ".opus" ∨ can_preserve_format = false then
    ⟨"FLAC", "PCM_24", false⟩
  else
    ⟨original_format, original_subtype, false⟩

/-- Where a `sf.write` call of `process_audio_file` writes. -/
inductive WriteTarget : Type where
  | tempWav : WriteTarget
  | finalOutput : WriteTarget
deriving DecidableEq

/-- One `sf.write` call: its target, the `format=`/`subtype=` arguments and
the sample-rate argument. -/
structure AudioWrite where
  target : WriteTarget
  fileFormat : String
  fileSubtype : String
  samplerate : ℕ
deriving DecidableEq

/-- The `sf.write` calls `process_audio_file` performs (lines 240-252 for the
mp3 path's temporary WAV, lines 313-323 for the direct lossless write). Both
calls pass the loaded `sample_rate` unchanged as the rate argument. -/
def pipeline_writes (plan : OutputPlan) (sample_rate : ℕ) : List AudioWrite :=
  if plan.will_convert_to_mp3 then
    [⟨WriteTarget.tempWav, plan.output_format, plan.output_subtype, sample_rate⟩]
  else
    [⟨WriteTarget.finalOutput, plan.output_format, plan.output_subtype, sample_rate⟩]

/-- How the external ffmpeg invocation of lines 258-312 can end:
`FileNotFoundError` when launching (`launchFailure`), any other exception
during the conversion (`conversionError`), or process exit with a return
code. -/
inductive EncoderOutcome : Type where
  | launchFailure : EncoderOutcome
  | conversionError : EncoderOutcome
  | exited : ℤ → EncoderOutcome
deriving DecidableEq

/-- What `process_audio_file` does after the ffmpeg attempt: whether the
temporary WAV intermediate was deleted (`temp_wav_path.unlink()`), and the
value the function returns. -/
structure TranscodeResult where
  intermediateDeleted : Bool
  returnsTrue : Bool
deriving DecidableEq

/-- Lines 296-312 and the final `return True` of line 326: on return code 0
the intermediate is deleted; on a non-zero return code or any caught
exception it is kept; every one of these paths falls through to
`return True`. -/
def mp3_transcode_finish : EncoderOutcome → TranscodeResult
  | .launchFailure => ⟨false, true⟩
  | .conversionError => ⟨false, true⟩
  | .exited code => if code = 0 then ⟨true, true⟩ else ⟨false, true⟩

/-- One line read from the ffmpeg progress stream (lines 284-294): either a
line `out_time_ms=<integer>` carrying the parsed integer, or any other
line, which the loop ignores. -/
inductive ProgressLine : Type where
  | outTime : ℤ → ProgressLine
  | other : ProgressLine
deriving DecidableEq

/-- One iteration of the progress loop (lines 284-294): on an
`out_time_ms=` line with positive `duration_seconds` the shown value becomes
`min(100, (time_ms / 1000000) / duration_seconds * 100)`; on any other line
(or non-positive duration) the shown value is unchanged. The shown value is
the bar's accumulated count, which equals `last_progress` because the bar is
advanced by `progress - last_progress` each time. -/
def progress_update (duration_seconds last_progress : ℚ) : ProgressLine → ℚ
  | .outTime time_ms =>
      if 0 < duration_seconds then
        min 100 ((time_ms : ℚ) / 1000000 / duration_seconds * 100)
      else last_progress
  | .other => last_progress

/-- The sequence of shown percentages, one entry per consumed line, starting
from the shown value `last_progress` (`0` at loop entry, line 283). -/
def progress_trace (duration_seconds last_progress : ℚ) : List ProgressLine → List ℚ
  | [] => []
  | line :: rest =>
      let p := progress_update duration_seconds last_progress line
      p :: progress_trace duration_seconds p rest

/-- Every value `progress_update` produces from a shown value that is at most
100 is itself at most 100. -/
theorem progress_update_le_100 (d last : ℚ) (hl : last ≤ 100) (line : ProgressLine) :
    progress_update d last line ≤ 100 := by
  cases line with
  | outTime t =>
      by_cases hd : 0 < d
      · simp only [progress_update, if_pos hd]
        exact min_le_left 100 _
      · simp only [progress_update, if_neg hd]
        exact hl
  | other => exact hl

/-- Starting from any shown value at most 100, every entry of the trace is at
most 100. -/
theorem progress_trace_le_100 (d : ℚ) (lines : List ProgressLine) :
    ∀ last : ℚ, last ≤ 100 → ∀ p ∈ progress_trace d last lines, p ≤ 100 := by
  induction lines with
  | nil => intro last _ p hp; simp [progress_trace] at hp
  | cons line rest ih =>
      intro last hlast p hp
      rw [progress_trace] at hp
      rcases List.mem_cons.mp hp with h | h
      · exact h ▸ progress_update_le_100 d last hlast line
      · exact ih _ (progress_update_le_100 d last hlast line) p h

/-- C6: `semitones_to_ratio` realizes the contract `ratio(s) = 2^(s/12)`:
it maps 0 to 1, 12 to 2 and -12 to 1/2, and is strictly monotone in the
semitone value. (It is a total pure function by construction.) -/
theorem semitones_to_ratio_contract :
    semitones_to_ratio 0 = 1 ∧ semitones_to_ratio 12 = 2 ∧
    semitones_to_ratio (-12) = 1 / 2 ∧ StrictMono semitones_to_ratio := by
  refine ⟨?_, ?_, ?_, ?_⟩
  · unfold semitones_to_ratio
    norm_num
  · unfold semitones_to_ratio
    rw [show (12 : ℝ) / 12 = 1 by norm_num, Real.rpow_one]
  · unfold semitones_to_ratio
    rw [show (-12 : ℝ) / 12 = -1 by norm_num, Real.rpow_neg_one]
    norm_num
  · intro a b hab
    unfold semitones_to_ratio
    exact (Real.rpow_lt_rpow_left_iff (by norm_num)).2 (by linarith)

/-- C5: a zero-semitone shift returns the sample data unchanged, whatever the
resampler does: the result does not depend on `resample`, so no resampling
pass is involved (and the input is not mutated, the function being pure). -/
theorem vinyl_pitch_shift_zero {α : Type} (resample : List α → ℕ → ℤ → List α)
    (audio_data : List α) (sr : ℕ) :
    vinyl_pitch_shift resample audio_data sr 0 = audio_data := by
  simp [vinyl_pitch_shift]

/-- C9: the bounds check accepts a semitone value exactly when its absolute
value is at most 12; values with `|semitones| > 12` are rejected (in the
input loop, before any audio processing). -/
theorem pitch_adjustment_accepted_iff (semitones : ℚ) :
    pitch_adjustment_accepted semitones = true ↔ |semitones| ≤ 12 := by
  unfold pitch_adjustment_accepted
  split <;> rename_i h
  · simp only [Bool.false_eq_true, false_iff, not_le]
    exact h
  · simp only [true_iff]
    exact not_lt.mp h

/-- C10: validation checks existence before format (a missing file is
rejected with "File does not exist." whatever its extension), and for an
existing file the verdict is exactly membership of the lowercased suffix in
the allow-list, so the uppercase suffix ".WAV" is accepted. -/
theorem validate_audio_file_order_and_case (ext : String) :
    validate_audio_file false ext = (false, "File does not exist.") ∧
    ((validate_audio_file true ext).1 = true ↔ pyLower ext ∈ get_supported_formats) ∧
    (validate_audio_file true ".WAV").1 = true := by
  refine ⟨rfl, ?_, by decide⟩
  unfold validate_audio_file
  by_cases h : pyLower ext ∈ get_supported_formats <;> simp [h]

/-- C3: the output decision table, in rule order: an `.mp3` extension gives
a 16-bit PCM WAV intermediate with the lossy transcode required; otherwise
`.m4a`, `.opus` or undetermined format information gives FLAC with 24-bit
PCM and no transcode; every other input keeps its original format and
subtype with no transcode. -/
theorem planOutput_decision_table (input_ext : String)
    (formatInfo : Option (String × String)) :
    (input_ext = ".mp3" →
      planOutput input_ext formatInfo = ⟨"WAV", "PCM_16", true⟩) ∧
    (input_ext ≠ ".mp3" →
      input_ext = ".m4a" ∨ input_ext = ".opus" ∨ formatInfo = none →
      planOutput input_ext formatInfo = ⟨"FLAC", "PCM_24", false⟩) ∧
    (∀ f s : String, input_ext ≠ ".mp3" → input_ext ≠ ".m4a" →
      input_ext ≠ ".opus" → formatInfo = some (f, s) →
      planOutput input_ext formatInfo = ⟨f, s, false⟩) := by
  refine ⟨?_, ?_, ?_⟩
  · intro h
    simp [planOutput, h]
  · intro h1 h2
    rcases h2 with h2 | h2 | h2 <;> simp [planOutput, h1, h2]
  · intro f s h1 h2 h3 h4
    subst h4
    simp [planOutput, h1, h2, h3]

/-- C4: whenever the external encoder fails to launch, raises, or exits with
a non-zero code, the temporary WAV intermediate is not deleted and
`process_audio_file` still returns `True`. -/
theorem transcode_failure_keeps_intermediate (o : EncoderOutcome)
    (h : o ≠ EncoderOutcome.exited 0) :
    (mp3_transcode_finish o).intermediateDeleted = false ∧
    (mp3_transcode_finish o).returnsTrue = true := by
  cases o with
  | launchFailure => exact ⟨rfl, rfl⟩
  | conversionError => exact ⟨rfl, rfl⟩
  | exited code =>
      have hc : ¬ code = 0 := fun hc => h (by rw [hc])
      simp [mp3_transcode_finish, hc]

/-- C4 witness: a non-zero exit code (code 1) keeps the intermediate and the
function returns `True`. -/
theorem transcode_failure_keeps_intermediate_witness :
    (mp3_transcode_finish (EncoderOutcome.exited 1)).intermediateDeleted = false ∧
    (mp3_transcode_finish (EncoderOutcome.exited 1)).returnsTrue = true :=
  transcode_failure_keeps_intermediate (EncoderOutcome.exited 1) (by decide)

/-- C7: every `sf.write` call the pipeline performs — the mp3 path's
temporary WAV and the direct lossless write alike — passes the input's
original sample rate as the rate argument, whatever plan the decision table
chose. -/
theorem pipeline_writes_original_rate (input_ext : String)
    (formatInfo : Option (String × String)) (sample_rate : ℕ) (w : AudioWrite)
    (hw : w ∈ pipeline_writes (planOutput input_ext formatInfo) sample_rate) :
    w.samplerate = sample_rate := by
  unfold pipeline_writes at hw
  split at hw <;> simp only [List.mem_singleton] at hw <;> subst hw <;> rfl

/-- C7 witness: the temporary WAV write of an `.mp3` input at 44100 Hz
carries rate 44100. -/
theorem pipeline_writes_original_rate_witness :
    (AudioWrite.mk WriteTarget.tempWav "WAV" "PCM_16" 44100).samplerate = 44100 :=
  pipeline_writes_original_rate ".mp3" none 44100
    (AudioWrite.mk WriteTarget.tempWav "WAV" "PCM_16" 44100) (by decide)

/-- C2 counterexample: with an expected duration of 2 seconds, the progress
lines `out_time_ms=4000000` then `out_time_ms=1000000` (values not monotone)
make the shown percentage drop from 100 to 50: the shown sequence is not
non-decreasing, so the claim fails as stated. -/
theorem progress_trace_not_monotone :
    progress_trace 2 0 [ProgressLine.outTime 4000000, ProgressLine.outTime 1000000] =
      [100, 50] ∧
    ¬ List.Chain' (· ≤ ·)
      (progress_trace 2 0 [ProgressLine.outTime 4000000, ProgressLine.outTime 1000000]) := by
  have h : progress_trace 2 0 [ProgressLine.outTime 4000000, ProgressLine.outTime 1000000] =
      [100, 50] := by
    simp only [progress_trace, progress_update]
    norm_num [min_def]
  refine ⟨h, ?_⟩
  rw [h]
  intro hc
  have h1 := (List.chain'_cons.mp hc).1
  norm_num at h1

/-- C2 (amended): the completion percentage shown after each consumed
progress line never exceeds 100; but it is not clamped monotone — it is
`min(100, elapsed/duration x 100)` of the latest `out_time_ms` line, so a
later report can show less progress than an earlier one when the parsed
values decrease. -/
theorem progress_trace_never_exceeds_100 (duration_seconds : ℚ)
    (lines : List ProgressLine) (p : ℚ)
    (hp : p ∈ progress_trace duration_seconds 0 lines) : p ≤ 100 :=
  progress_trace_le_100 duration_seconds lines 0 (by norm_num) p hp

/-- C2 witness: the shown value 100 produced by the line
`out_time_ms=4000000` at duration 2 s is at most 100. -/
theorem progress_trace_never_exceeds_100_witness :
    (100 : ℚ) ∈ progress_trace 2 0 [ProgressLine.outTime 4000000] ∧ (100 : ℚ) ≤ 100 := by
  have h : progress_trace 2 0 [ProgressLine.outTime 4000000] = [100] := by
    simp only [progress_trace, progress_update]
    norm_num [min_def]
  have hmem : (100 : ℚ) ∈ progress_trace 2 0 [ProgressLine.outTime 4000000] := by
    rw [h]
    exact List.mem_singleton.mpr rfl
  exact ⟨hmem, progress_trace_never_exceeds_100 2 [ProgressLine.outTime 4000000] 100 hmem⟩

/-- Shifting two channels of equal length with the same rate and semitone
parameters yields outputs of equal length, provided the resampler's output
length is determined by the input length and the rates (as a rate converter's
is). -/
theorem vinyl_pitch_shift_length_eq {α : Type} (resample : List α → ℕ → ℤ → List α)
    (sr : ℕ) (semitones : ℚ)
    (hres : ∀ (c₁ c₂ : List α) (src : ℕ) (tgt : ℤ), c₁.length = c₂.length →
      (resample c₁ src tgt).length = (resample c₂ src tgt).length)
    (c₁ c₂ : List α) (h : c₁.length = c₂.length) :
    (vinyl_pitch_shift resample c₁ sr semitones).length =
      (vinyl_pitch_shift resample c₂ sr semitones).length := by
  unfold vinyl_pitch_shift
  split
  · exact h
  · exact hres c₁ c₂ sr (target_sr sr semitones) h

/-- C8: for a buffer of equal-length channels, the processed buffer has the
same channel count, its i-th channel is the shift of the input's i-th channel
(order preserved), and all output channels again have equal length; the input
buffer is left untouched, the function being pure. The resampler is assumed
to give equal-length outputs to equal-length inputs at the same rates. -/
theorem processChannels_preserves_channels (α : Type)
    (resample : List α → ℕ → ℤ → List α) (buffer : List (List α)) (sr : ℕ)
    (semitones : ℚ)
    (hres : ∀ (c₁ c₂ : List α) (src : ℕ) (tgt : ℤ), c₁.length = c₂.length →
      (resample c₁ src tgt).length = (resample c₂ src tgt).length)
    (hbuf : ∀ c₁ ∈ buffer, ∀ c₂ ∈ buffer, c₁.length = c₂.length) :
    (processChannels resample buffer sr semitones).length = buffer.length ∧
    (∀ i : ℕ, (processChannels resample buffer sr semitones)[i]? =
      (buffer[i]?).map fun c => vinyl_pitch_shift resample c sr semitones) ∧
    (∀ d₁ ∈ processChannels resample buffer sr semitones,
      ∀ d₂ ∈ processChannels resample buffer sr semitones,
        d₁.length = d₂.length) := by
  refine ⟨?_, ?_, ?_⟩
  · simp [processChannels]
  · intro i
    simp [processChannels]
  · intro d₁ hd₁ d₂ hd₂
    rcases List.mem_map.mp hd₁ with ⟨c₁, hc₁, rfl⟩
    rcases List.mem_map.mp hd₂ with ⟨c₂, hc₂, rfl⟩
    exact vinyl_pitch_shift_length_eq resample sr semitones hres c₁ c₂ (hbuf c₁ hc₁ c₂ hc₂)

/-- C8 witness: a concrete two-channel buffer of equal-length channels keeps
its channel count under processing (resampler instantiated with one whose
output length depends only on the input). -/
theorem processChannels_preserves_channels_witness :
    (processChannels (fun (c : List ℕ) _ _ => c) [[0, 1], [2, 3]] 44100 6).length = 2 :=
  (processChannels_preserves_channels ℕ (fun c _ _ => c) [[0, 1], [2, 3]] 44100 6
    (fun _ _ _ _ h => h) (by decide)).1

/-- The rate ratio is positive for every semitone value. -/
theorem semitones_to_ratio_pos (s : ℝ) : 0 < semitones_to_ratio s :=
  Real.rpow_pos_of_pos (by norm_num) _

/-- At +6 semitones the rate ratio is the square root of 2. -/
theorem semitones_to_ratio_six : semitones_to_ratio ((6 : ℚ) : ℝ) = Real.sqrt 2 := by
  unfold semitones_to_ratio
  rw [show ((6 : ℚ) : ℝ) / 12 = 1 / 2 by norm_num]
  exact (Real.sqrt_eq_rpow 2).symm

/-- C1 counterexample: at +6 semitones (rate ratio √2) and source rate
100 Hz the code's target rate `int(100 / sqrt 2)` is 70, while the nearest
integer to 100 / √2 = 70.71... is 71: the code truncates, it does not
round. -/
theorem target_sr_ne_round_spec : target_sr 100 6 ≠ target_sr_spec 100 6 := by
  have hpos : (0 : ℝ) < Real.sqrt 2 := Real.sqrt_pos.mpr (by norm_num)
  have hsq : Real.sqrt 2 * Real.sqrt 2 = 2 := Real.mul_self_sqrt (by norm_num)
  have hx1 : (141 / 2 : ℝ) ≤ 100 / Real.sqrt 2 := by
    rw [le_div_iff₀ hpos]
    nlinarith [hsq, hpos]
  have hx2 : (100 : ℝ) / Real.sqrt 2 < 71 := by
    rw [div_lt_iff₀ hpos]
    nlinarith [hsq, hpos]
  have hfloor : ⌊(100 : ℝ) / Real.sqrt 2⌋ = 70 := by
    rw [Int.floor_eq_iff]
    constructor
    · push_cast
      linarith [hx1]
    · push_cast
      linarith [hx2]
  have hround : round ((100 : ℝ) / Real.sqrt 2) = 71 := by
    rw [round_eq, Int.floor_eq_iff]
    constructor
    · push_cast
      linarith [hx1]
    · push_cast
      linarith [hx2]
  have hcast : ((100 : ℕ) : ℝ) = (100 : ℝ) := by norm_num
  unfold target_sr target_sr_spec pyInt
  rw [semitones_to_ratio_six, hcast]
  rw [if_pos (by positivity)]
  rw [hfloor, hround]
  decide

/-- C1 (amended): for every nonzero semitone adjustment and positive source
rate, the code's target rate is the floor of source_rate / 2^(s/12) —
Python's `int()` truncation toward zero applied to the positive quotient —
not the nearest integer. -/
theorem target_sr_eq_floor (semitones : ℚ) (sr : ℕ)
    (_hs : semitones ≠ 0) (_hsr : 0 < sr) :
    target_sr sr semitones = ⌊(sr : ℝ) / semitones_to_ratio (semitones : ℝ)⌋ := by
  have hpos : (0 : ℝ) ≤ (sr : ℝ) / semitones_to_ratio (semitones : ℝ) :=
    div_nonneg (Nat.cast_nonneg sr) (semitones_to_ratio_pos _).le
  unfold target_sr pyInt
  rw [if_pos hpos]

/-- C1 witness: the amended statement at +6 semitones and source rate
100 Hz. -/
theorem target_sr_eq_floor_witness :
    target_sr 100 6 = ⌊((100 : ℕ) : ℝ) / semitones_to_ratio ((6 : ℚ) : ℝ)⌋ :=
  target_sr_eq_floor 6 100 (by norm_num) (by norm_num)

end PitchCorrector
